import Mathlib

/-!
Verification of the claudeoo SSE interception core (src/interceptor.ts, src/pricing.ts).

Shallow embedding notes:
* JSON payloads are modelled by structures whose fields are exactly the fields the
  code reads (`Record<string, unknown>` accesses); an absent field is `none`.
  `JSON.parse` itself is an external runtime facility, so the demuxer takes the
  payload parser as an explicit function argument of type `List Char → Option EventData`
  (a payload whose parse fails is `none`).
* JavaScript truthiness on strings (`if (msg.id)`, `x || y`) is modelled by
  `truthyStr`: an absent field or the empty string is falsy.
* Nullish coalescing (`a ?? b`) on an optional number is `Option.getD`.
* Token counts are `Nat`; prices and costs are `Rat` (the zero-cost path of the
  claims is exact, so float rounding never matters for the statements proved here).
* `String.length` stands in for JavaScript's UTF-16 `length`; the chunk buffer is a
  `List Char`, and `TextDecoder`'s multi-byte handling is abstracted by working at
  the character level.
* The TypeScript union `ContentBlockType` is a string at runtime and the cast in
  `content_block_start` is unchecked, so tracked block kinds are plain strings here.
-/

/-- Usage data from the API response (src/types.ts `ApiUsage`): the cache fields are
optional in the TypeScript interface. -/
structure ApiUsage where
  input_tokens : Nat
  output_tokens : Nat
  cache_creation_input_tokens : Option Nat
  cache_read_input_tokens : Option Nat
  deriving DecidableEq

/-- Tracked content block during streaming (src/types.ts `TrackedBlock`). -/
structure TrackedBlock where
  index : Nat
  type : String
  charCount : Nat
  deriving DecidableEq

/-- Mutable state accumulated during SSE stream processing
(src/interceptor.ts `StreamState`, lines 452-459). -/
structure StreamState where
  messageId : Option String
  model : String
  usage : ApiUsage
  stopReason : Option String
  contentBlocks : List TrackedBlock
  deriving DecidableEq

/-- The fields of a `message_start` usage payload read by the code
(`u.input_tokens || 0` etc., interceptor.ts 473-479), and of a `message_delta`
usage payload (`deltaUsage.output_tokens`, line 521). -/
structure UsagePayload where
  input_tokens : Option Nat
  output_tokens : Option Nat
  cache_creation_input_tokens : Option Nat
  cache_read_input_tokens : Option Nat
  deriving DecidableEq

/-- The fields of `data.message` read by `message_start` handling (lines 468-479). -/
structure MessagePayload where
  id : Option String
  model : Option String
  usage : Option UsagePayload
  deriving DecidableEq

/-- The fields of `data.content_block` read by `content_block_start` (lines 489-496). -/
structure BlockPayload where
  type : Option String
  deriving DecidableEq

/-- The fields of `data.delta` read by `content_block_delta` (text / thinking /
partial structured-arguments, lines 507-511; the last is the source's
partial_json field, renamed here) and by `message_delta` (stop_reason, line 525). -/
structure DeltaPayload where
  text : Option String
  thinking : Option String
  partJson : Option String
  stop_reason : Option String
  deriving DecidableEq

/-- A parsed SSE event payload: the top-level fields `processSSEEvent` reads,
plus `type`, which `processPendingBuffer` uses as a fallback event type. -/
structure EventData where
  message : Option MessagePayload
  content_block : Option BlockPayload
  index : Option Nat
  delta : Option DeltaPayload
  usage : Option UsagePayload
  type : Option String
  deriving DecidableEq

/-- An event payload with every field absent; concrete payloads are built by updating it. -/
def emptyEvent : EventData :=
  { message := none, content_block := none, index := none, delta := none,
    usage := none, type := none }

/-- JavaScript string truthiness: an absent value and the empty string are falsy. -/
def truthyStr (o : Option String) : Option String :=
  match o with
  | some s => if s = "" then none else some s
  | none => none

/-- Embeds `delta.text || delta.thinking || delta.partial-json || ""` (interceptor.ts 507-511):
the first truthy field, with the empty string as final default. -/
def deltaText (d : DeltaPayload) : String :=
  (((truthyStr d.text).orElse fun _ =>
    (truthyStr d.thinking).orElse fun _ => truthyStr d.partJson)).getD ""

/-- Embeds `state.contentBlocks.find((b) => b.index === index)` followed by the in-place
`block.charCount += len` (interceptor.ts 505-512): add `len` to the first block
whose index matches; no match leaves the list unchanged. -/
def bumpFirst (bs : List TrackedBlock) (i : Nat) (len : Nat) : List TrackedBlock :=
  match bs with
  | [] => []
  | b :: rest =>
    if b.index = i then { b with charCount := b.charCount + len } :: rest
    else b :: bumpFirst rest i len

/-- Embeds `state.contentBlocks.find((b) => b.index === index)`: the first tracked block
with the given index, if any. -/
def findBlock (bs : List TrackedBlock) (i : Nat) : Option TrackedBlock :=
  bs.find? fun b => b.index = i

/-- The `message_start` case (interceptor.ts 467-486): set message id and model
when truthy, and install the payload's usage snapshot with absent numeric
fields defaulted to 0.  (The live-status update it also performs is a display
effect outside the stream state.) -/
def onMessageStart (data : EventData) (state : StreamState) : StreamState :=
  match data.message with
  | none => state
  | some msg =>
    let s1 := match truthyStr msg.id with
      | some i => { state with messageId := some i }
      | none => state
    let s2 := match truthyStr msg.model with
      | some m => { s1 with model := m }
      | none => s1
    match msg.usage with
    | some u =>
      { s2 with usage :=
        { input_tokens := u.input_tokens.getD 0,
          output_tokens := u.output_tokens.getD 0,
          cache_creation_input_tokens := some (u.cache_creation_input_tokens.getD 0),
          cache_read_input_tokens := some (u.cache_read_input_tokens.getD 0) } }
    | none => s2

/-- The `content_block_start` case (interceptor.ts 488-499): push a tracked block
at the declared index (defaulting to the current block count), of the declared
kind (defaulting to text), with a zero character count. -/
def onBlockStart (data : EventData) (state : StreamState) : StreamState :=
  match data.content_block with
  | none => state
  | some block =>
    { state with contentBlocks := state.contentBlocks ++
        [{ index := data.index.getD state.contentBlocks.length,
           type := (truthyStr block.type).getD "text", charCount := 0 }] }

/-- The `content_block_delta` case (interceptor.ts 501-516): when both the index
and the delta are present, add the delta text's length to the first block with
that index; otherwise, and when no block matches, do nothing. -/
def onBlockDelta (data : EventData) (state : StreamState) : StreamState :=
  match data.index, data.delta with
  | some index, some delta =>
    { state with contentBlocks :=
        bumpFirst state.contentBlocks index (deltaText delta).length }
  | _, _ => state

/-- The `message_delta` case (interceptor.ts 518-530): overwrite the output token
count with the payload's value when present, and capture a truthy stop reason. -/
def onMessageDelta (data : EventData) (state : StreamState) : StreamState :=
  let s1 := match data.usage with
    | some u =>
      { state with usage :=
        { state.usage with output_tokens := u.output_tokens.getD state.usage.output_tokens } }
    | none => state
  match data.delta with
  | some d =>
    match truthyStr d.stop_reason with
    | some r => { s1 with stopReason := some r }
    | none => s1
  | none => s1

/-- Embeds `processSSEEvent` (interceptor.ts 461-532): fold one (eventType, payload) pair
into the stream state.  The switch's four cases are the if-chain below; any other
event type falls through to the unchanged state. -/
def processSSEEvent (eventType : String) (data : EventData) (state : StreamState) :
    StreamState :=
  if eventType = "message_start" then onMessageStart data state
  else if eventType = "content_block_start" then onBlockStart data state
  else if eventType = "content_block_delta" then onBlockDelta data state
  else if eventType = "message_delta" then onMessageDelta data state
  else state

/-- Per-call pending stream (src/interceptor.ts `PendingStream`, lines 46-53).
`startTime` is a wall-clock effect and is carried by `RecordEnv` below instead. -/
structure Pending where
  state : StreamState
  requestModel : String
  turnNum : Nat
  buffer : List Char
  eventType : String
  deriving DecidableEq

/-- The pending stream created when a matching streaming response is seen
(interceptor.ts 232-245): empty buffer, empty event-type scratch, fresh state
whose usage is `\x7b input_tokens: 0, output_tokens: 0 \x7d`. -/
def startPending (requestModel : String) (turnNum : Nat) : Pending :=
  { state :=
      { messageId := none, model := requestModel,
        usage := { input_tokens := 0, output_tokens := 0,
                   cache_creation_input_tokens := none, cache_read_input_tokens := none },
        stopReason := none, contentBlocks := [] },
    requestModel := requestModel, turnNum := turnNum, buffer := [], eventType := "" }

/-- Embeds `pending.buffer.split("\n")` followed by `lines.pop()` (interceptor.ts 329-330):
the complete lines before each newline, paired with the final (possibly empty,
possibly incomplete) fragment that is retained for the next call. -/
def breakLines : List Char → List (List Char) × List Char
  | [] => ([], [])
  | c :: rest =>
    let r := breakLines rest
    if c = '\n' then ([] :: r.1, r.2)
    else
      match r.1 with
      | [] => ([], c :: r.2)
      | l :: ls => ((c :: l) :: ls, r.2)

/-- Character-list prefix test (JavaScript `String.prototype.startsWith`). -/
def hasPre : List Char → List Char → Bool
  | [], _ => true
  | _ :: _, [] => false
  | p :: ps, c :: cs => p = c && hasPre ps cs

/-- JavaScript `String.prototype.trim` on a character list (ASCII whitespace). -/
def trimChars (l : List Char) : List Char :=
  ((l.dropWhile Char.isWhitespace).reverse.dropWhile Char.isWhitespace).reverse

/-- The seven characters of the marker string of an event-type line. -/
def eventHead : List Char := ['e', 'v', 'e', 'n', 't', ':', ' ']

/-- The six characters of the marker string of a data line. -/
def dataHead : List Char := ['d', 'a', 't', 'a', ':', ' ']

/-- The stream-termination sentinel payload (the bracketed DONE marker). -/
def doneChars : List Char := ['[', 'D', 'O', 'N', 'E', ']']

/-- The body of the per-line loop of `processPendingBuffer` (interceptor.ts 332-362),
acting on the (eventType, state) pair it mutates:
an event-type line stores its trimmed tail; a data line whose payload is the
termination sentinel is dropped; any other data payload is parsed and, if parsing
succeeds, applied with the current event type (or the payload's own declared type
when none is pending); a parse failure skips the unit; a blank (whitespace-only)
line resets the pending event type.  The `writeLog` call in the loop is an
external best-effort sink with no effect on this state. -/
def lineStep (parse : List Char → Option EventData) (eventType : String)
    (state : StreamState) (line : List Char) : String × StreamState :=
  if hasPre eventHead line then
    (String.mk (trimChars (line.drop 7)), state)
  else if hasPre dataHead line then
    let data := line.drop 6
    if data = doneChars then (eventType, state)
    else
      match parse data with
      | some parsed =>
        let evtType := if eventType ≠ "" then eventType else parsed.type.getD ""
        (eventType, processSSEEvent evtType parsed state)
      | none => (eventType, state)
  else if trimChars line = [] then ("", state)
  else (eventType, state)

/-- The per-line loop run over a list of complete lines. -/
def runLines (parse : List Char → Option EventData) (c : String × StreamState)
    (ls : List (List Char)) : String × StreamState :=
  ls.foldl (fun c l => lineStep parse c.1 c.2 l) c

/-- Embeds `processPendingBuffer` (interceptor.ts 328-363): split the buffer on line breaks,
retain the final fragment, and run the loop over the complete lines. -/
def processPendingBuffer (parse : List Char → Option EventData) (p : Pending) : Pending :=
  { p with
    buffer := (breakLines p.buffer).2,
    eventType := (runLines parse (p.eventType, p.state) (breakLines p.buffer).1).1,
    state := (runLines parse (p.eventType, p.state) (breakLines p.buffer).1).2 }

/-- One chunk-arrival callback (interceptor.ts 264-274 and 298-307):
`pending.buffer += decoded chunk` then `processPendingBuffer(pending)`. -/
def feedChunk (parse : List Char → Option EventData) (p : Pending)
    (chunk : List Char) : Pending :=
  processPendingBuffer parse { p with buffer := p.buffer ++ chunk }

/-- Pricing for a single model, USD per million tokens (src/types.ts `ModelPricing`).
Prices are rationals here; see the header note. -/
structure ModelPricing where
  input : Rat
  output : Rat
  cacheWrite : Rat
  cacheRead : Rat
  deriving DecidableEq

/-- Full pricing configuration (src/types.ts `PricingConfig`): the JavaScript object
`models` is a key-ordered association list with distinct keys. -/
structure PricingConfig where
  version : String
  models : List (String × ModelPricing)
  deriving DecidableEq

/-- Object property access `config.models[key]` on the models map. -/
def lookupModel (models : List (String × ModelPricing)) (key : String) :
    Option ModelPricing :=
  (models.find? fun kv => kv.1 = key).map Prod.snd

/-- Character-list substring test (JavaScript `String.prototype.includes`). -/
def containsSub (s pat : List Char) : Bool :=
  match s with
  | [] => pat.isEmpty
  | _ :: rest => hasPre pat s || containsSub rest pat

/-- Embeds `normalizeModelId` (src/pricing.ts 50-53): strip a date suffix, a hyphen
followed by exactly eight digits at the end of the id. -/
def normalizeModelId (modelId : String) : String :=
  let cs := modelId.data
  let n := cs.length
  if 9 ≤ n ∧ (cs.drop (n - 9)).head? = some '-' ∧ (cs.drop (n - 8)).all Char.isDigit
  then String.mk (cs.take (n - 9)) else modelId

/-- The inner loop of the family match (src/pricing.ts 75-79): the first entry
whose key contains the family name as a substring. -/
def familyLookup (models : List (String × ModelPricing)) (family : String) :
    Option ModelPricing :=
  (models.find? fun kv => containsSub kv.1.data family.data).map Prod.snd

/-- The outer family loop of `resolvePricing` (src/pricing.ts 71-81): for each
family name in order, if the normalized id contains it, return the first stored
entry of that family; when no stored key matches, the loop falls through to the
next family. -/
def familyScan (models : List (String × ModelPricing)) (normalized : String) :
    List String → Option ModelPricing
  | [] => none
  | fam :: rest =>
    if containsSub normalized.data fam.data then
      match familyLookup models fam with
      | some p => some p
      | none => familyScan models normalized rest
    else familyScan models normalized rest

/-- Embeds `resolvePricing` (src/pricing.ts 56-84): exact match on the normalized id,
then on the raw id, then the family scan over opus / sonnet / haiku. -/
def resolvePricing (cfg : PricingConfig) (modelId : String) : Option ModelPricing :=
  let normalized := normalizeModelId modelId
  match lookupModel cfg.models normalized with
  | some p => some p
  | none =>
    match lookupModel cfg.models modelId with
    | some p => some p
    | none => familyScan cfg.models normalized ["opus", "sonnet", "haiku"]

/-- Embeds `calculateCost` (src/pricing.ts 87-104): an unresolvable model costs 0;
otherwise the four token counts are billed per million tokens. -/
def calculateCost (cfg : PricingConfig) (modelId : String)
    (inputTokens outputTokens cacheWriteTokens cacheReadTokens : Nat) : Rat :=
  match resolvePricing cfg modelId with
  | none => 0
  | some pricing =>
    let M : Rat := 1000000
    (inputTokens / M) * pricing.input +
    (outputTokens / M) * pricing.output +
    (cacheWriteTokens / M) * pricing.cacheWrite +
    (cacheReadTokens / M) * pricing.cacheRead

/-- The inline fallback pricing table (src/pricing.ts 38-45), used as a concrete
configuration in witnesses. -/
def fallbackPricing : PricingConfig :=
  { version := "2026-02-21-fallback",
    models :=
      [("claude-opus-4-6",
        { input := 5, output := 25, cacheWrite := 6.25, cacheRead := 0.5 }),
       ("claude-sonnet-4-6",
        { input := 3, output := 15, cacheWrite := 3.75, cacheRead := 0.3 }),
       ("claude-haiku-4-5",
        { input := 1, output := 5, cacheWrite := 1.25, cacheRead := 0.1 })] }

/-- The per-kind character totals accumulated by the finalizer's loop
(interceptor.ts 371-380). -/
structure CharTotals where
  thinkingChars : Nat
  textChars : Nat
  toolUseChars : Nat
  deriving DecidableEq

/-- The finalizer's summation loop (interceptor.ts 374-380): blocks of kind
thinking / text / tool_use add their character counts to the matching total;
any other kind (including tool_result) is not summed. -/
def sumBlockChars (blocks : List TrackedBlock) : CharTotals :=
  blocks.foldl
    (fun acc b =>
      if b.type = "thinking" then { acc with thinkingChars := acc.thinkingChars + b.charCount }
      else if b.type = "text" then { acc with textChars := acc.textChars + b.charCount }
      else if b.type = "tool_use" then { acc with toolUseChars := acc.toolUseChars + b.charCount }
      else acc)
    { thinkingChars := 0, textChars := 0, toolUseChars := 0 }

/-- The ambient effects read while building a record (interceptor.ts 390-407):
session id, wall-clock timestamp, working directory, and elapsed duration. -/
structure RecordEnv where
  sessionId : String
  timestamp : String
  cwd : Option String
  durationMs : Nat
  deriving DecidableEq

/-- A single recorded API call (src/types.ts `ApiCallRecord`). -/
structure ApiCallRecord where
  session_id : String
  message_id : Option String
  model : String
  timestamp : String
  input_tokens : Nat
  output_tokens : Nat
  cache_creation_input_tokens : Nat
  cache_read_input_tokens : Nat
  thinking_chars : Nat
  text_chars : Nat
  tool_use_chars : Nat
  stop_reason : Option String
  cost_usd : Rat
  cwd : Option String
  turn_number : Nat
  duration_ms : Nat
  deriving DecidableEq

/-- The record construction of `finalizeStream` (interceptor.ts 366-409): sum the
block character counts by kind, price the final usage snapshot (absent cache
counters default to 0), and build the immutable record.  The ledger update,
status line, `writeRecord` and `writeLog` calls that follow are external sinks. -/
def finalizeRecord (cfg : PricingConfig) (env : RecordEnv) (p : Pending) :
    ApiCallRecord :=
  let state := p.state
  let totals := sumBlockChars state.contentBlocks
  let cost := calculateCost cfg state.model state.usage.input_tokens
    state.usage.output_tokens (state.usage.cache_creation_input_tokens.getD 0)
    (state.usage.cache_read_input_tokens.getD 0)
  { session_id := env.sessionId,
    message_id := state.messageId,
    model := state.model,
    timestamp := env.timestamp,
    input_tokens := state.usage.input_tokens,
    output_tokens := state.usage.output_tokens,
    cache_creation_input_tokens := state.usage.cache_creation_input_tokens.getD 0,
    cache_read_input_tokens := state.usage.cache_read_input_tokens.getD 0,
    thinking_chars := totals.thinkingChars,
    text_chars := totals.textChars,
    tool_use_chars := totals.toolUseChars,
    stop_reason := state.stopReason,
    cost_usd := cost,
    cwd := env.cwd,
    turn_number := p.turnNum,
    duration_ms := env.durationMs }

/-- The engine's shared mutable resources: the pending map keyed by turn number
(interceptor.ts 44) and the in-process list of finalized records (line 29). -/
structure SysState where
  pendingStreams : List (Nat × Pending)
  records : List ApiCallRecord
  deriving DecidableEq

/-- Embeds the `pendingStreams.get(n)`-style lookup on the pending map. -/
def lookupTurn (m : List (Nat × Pending)) (n : Nat) : Option Pending :=
  (m.find? fun e => e.1 = n).map Prod.snd

/-- Embeds `pendingStreams.delete(n)`: remove the entry keyed by the turn number. -/
def eraseTurn (m : List (Nat × Pending)) (n : Nat) : List (Nat × Pending) :=
  m.filter fun e => e.1 ≠ n

/-- The done branch of the wrapped `read()` (interceptor.ts 309-316) and of the
wrapped iterator's `next()` (lines 275-282): it runs on every result whose done
flag is set, on the closed-over pending stream and without consulting the
pending map — flush the buffer, append the finalized record
(`finalizeStream`), and delete the turn from the pending map, all in one
synchronous block.  The updated closure object is returned alongside the
system state, because the closure keeps it after the map entry is deleted. -/
def onStreamDone (parse : List Char → Option EventData) (cfg : PricingConfig)
    (env : RecordEnv) (turnNum : Nat) (pending : Pending) (sys : SysState) :
    Pending × SysState :=
  let p' := processPendingBuffer parse pending
  (p',
   { pendingStreams := eraseTurn sys.pendingStreams turnNum,
     records := sys.records ++ [finalizeRecord cfg env p'] })

/-- The exit handler's flush loop (interceptor.ts 72-88): for every entry of the
pending map, in order, run the per-stream finalizer inside its own try/catch —
modelled by `fin`, which yields `none` when that stream's finalization throws —
and clear the pending map afterward. -/
def exitFlush (fin : Pending → Option ApiCallRecord) (sys : SysState) : SysState :=
  { pendingStreams := [],
    records := sys.pendingStreams.foldl
      (fun recs e =>
        match fin e.2 with
        | some r => recs ++ [r]
        | none => recs)
      sys.records }

/-! ## Concrete fixtures used by witnesses and scenario conjuncts

`JSON.parse` is external to the engine, so witnesses use `demoParse`, a tiny
concrete payload parser: four short payload spellings map to the payload shapes
of the wire format, everything else fails to parse. -/

/-- A `message_start` usage payload declaring 100 input and 0 output tokens. -/
def msUsage : UsagePayload :=
  { input_tokens := some 100, output_tokens := some 0,
    cache_creation_input_tokens := none, cache_read_input_tokens := none }

/-- A `message_start` message payload with id, model and `msUsage`. -/
def msPayload : MessagePayload :=
  { id := some "msg_1", model := some "claude-opus-4-6-20250610",
    usage := some msUsage }

/-- A `content_block_delta` delta payload carrying plain text. -/
def textDelta (s : String) : DeltaPayload :=
  { text := some s, thinking := none, partJson := none, stop_reason := none }

/-- The concrete payload parser for witnesses (stands in for `JSON.parse`). -/
def demoParse (data : List Char) : Option EventData :=
  if data = ['m', 's'] then some { emptyEvent with message := some msPayload }
  else if data = ['c', 'b'] then
    some { emptyEvent with content_block := some { type := some "text" }, index := some 0 }
  else if data = ['d', '5'] then
    some { emptyEvent with index := some 0, delta := some (textDelta "aaaaa") }
  else if data = ['d', '7'] then
    some { emptyEvent with index := some 0, delta := some (textDelta "bbbbbbb") }
  else none

/-- A transcript containing only `message_start` plus two `content_block_delta`
events and no stream-completion signal (the exit-safety scenario). -/
def partialTranscript : List Char :=
  ("event: message_start\ndata: ms\n\nevent: content_block_delta\ndata: d5\n\n" ++
   "event: content_block_delta\ndata: d7\n").data

/-- Concrete ambient record effects for witnesses. -/
def demoEnv : RecordEnv :=
  { sessionId := "session-1", timestamp := "2026-02-21T00:00:00Z",
    cwd := none, durationMs := 1200 }

/-- A small concrete stream state holding one text block at index 0. -/
def demoState : StreamState :=
  { messageId := none, model := "claude-opus-4-6-20250610",
    usage := { input_tokens := 7, output_tokens := 3,
               cache_creation_input_tokens := none, cache_read_input_tokens := none },
    stopReason := none, contentBlocks := [{ index := 0, type := "text", charCount := 4 }] }

/-- A concrete pending stream around `demoState`. -/
def demoPending : Pending :=
  { state := demoState, requestModel := "claude-opus-4-6-20250610",
    turnNum := 1, buffer := [], eventType := "" }

/-- A repeated `content_block_start` payload for index 0. -/
def dupBlockStart : EventData :=
  { emptyEvent with content_block := some { type := some "text" }, index := some 0 }

/-- The per-stream finalizer used in exit-flusher witnesses: never fails,
mirrors the exit handler's `processPendingBuffer` + `finalizeStream` pair. -/
def demoFin (p : Pending) : Option ApiCallRecord :=
  some (finalizeRecord fallbackPricing demoEnv (processPendingBuffer demoParse p))

/-- A `message_delta` usage payload carrying only an output token count. -/
def usageOut (n : Nat) : UsagePayload :=
  { input_tokens := none, output_tokens := some n,
    cache_creation_input_tokens := none, cache_read_input_tokens := none }

/-- A usage payload with no output token field. -/
def noOutUsage : UsagePayload :=
  { input_tokens := some 4, output_tokens := none,
    cache_creation_input_tokens := some 2, cache_read_input_tokens := none }

/-- A `message_delta` delta payload carrying only a stop reason. -/
def stopDelta (r : String) : DeltaPayload :=
  { text := none, thinking := none, partJson := none, stop_reason := some r }

/-- A `message_start` event wrapping `msPayload`. -/
def msEvent : EventData := { emptyEvent with message := some msPayload }

/-- A `content_block_delta` event for index 0 carrying plain text. -/
def deltaEvent0 (s : String) : EventData :=
  { emptyEvent with index := some 0, delta := some (textDelta s) }

/-- A `message_delta` event with 50 output tokens and an end_turn stop reason. -/
def md50Event : EventData :=
  { emptyEvent with usage := some (usageOut 50), delta := some (stopDelta "end_turn") }

/-- A `message_delta` event with 9 output tokens and no delta object. -/
def md9Event : EventData := { emptyEvent with usage := some (usageOut 9) }

/-- A `message_delta` event with a tool_use stop reason and no usage object. -/
def mdToolStopEvent : EventData := { emptyEvent with delta := some (stopDelta "tool_use") }

/-- A `message_delta` event whose usage object lacks an output token field. -/
def mdNoOutEvent : EventData := { emptyEvent with usage := some noOutUsage }

/-- A `message_delta` event carrying only an end_turn stop reason. -/
def mdStopEvent : EventData := { emptyEvent with delta := some (stopDelta "end_turn") }

/-- The events between `message_start` and `message_delta` in the C1 witness. -/
def midList : List (String × EventData) := [("content_block_delta", deltaEvent0 "hi")]

/-- A pending stream whose model matches no pricing entry. -/
def unknownModelPending : Pending :=
  { state := { demoState with model := "mystery-model-x" },
    requestModel := "mystery-model-x", turnNum := 3, buffer := [], eventType := "" }

/-- One completed stream: the done branch fired once for turn 3. -/
def doneOnce : Pending × SysState :=
  onStreamDone demoParse fallbackPricing demoEnv 3 unknownModelPending
    { pendingStreams := [(3, unknownModelPending)], records := [] }

/-- A consumer read the stream again after its end: the done branch fired a
second time for turn 3, from the same closure. -/
def doneTwice : Pending × SysState :=
  onStreamDone demoParse fallbackPricing demoEnv 3 doneOnce.1 doneOnce.2

/-- The stream state of the correction-scenario witness. -/
def c1State : StreamState :=
  processSSEEvent "message_delta" md50Event
    (midList.foldl (fun st e => processSSEEvent e.1 e.2 st)
      (processSSEEvent "message_start" msEvent demoState))

/-- The pending stream of the correction-scenario witness. -/
def c1Pending : Pending :=
  { state := c1State, requestModel := "claude-opus-4-6-20250610", turnNum := 2,
    buffer := [], eventType := "" }

/-! ## Helper lemmas about the demuxer -/

/-- Splitting a concatenation: the complete lines of `a ++ b` are the complete
lines of `a` followed by those of `a`'s retained fragment prepended to `b`, and
the final fragment is likewise the one of the continuation. -/
theorem breakLines_append (a b : List Char) :
    breakLines (a ++ b) =
      ((breakLines a).1 ++ (breakLines ((breakLines a).2 ++ b)).1,
       (breakLines ((breakLines a).2 ++ b)).2) := by
  induction a with
  | nil => simp [breakLines]
  | cons c a ih =>
    by_cases hc : c = '\n'
    · subst hc
      simp [breakLines, ih]
    · rcases h1 : (breakLines a).1 with _ | ⟨l, ls⟩
      · have hbl : breakLines (c :: a) = ([], c :: (breakLines a).2) := by
          simp [breakLines, hc, h1]
        rcases h2 : (breakLines ((breakLines a).2 ++ b)).1 with _ | ⟨l', ls'⟩ <;>
          simp [breakLines, hc, ih, h1, h2, hbl]
      · have hbl : breakLines (c :: a) = ((c :: l) :: ls, (breakLines a).2) := by
          simp [breakLines, hc, h1]
        simp [breakLines, hc, ih, h1, hbl]

/-- Feeding two chunks in sequence is the same as feeding their concatenation:
the incomplete-fragment hand-off of `processPendingBuffer` loses nothing. -/
theorem feedChunk_append (parse : List Char → Option EventData) (p : Pending)
    (a b : List Char) :
    feedChunk parse (feedChunk parse p a) b = feedChunk parse p (a ++ b) := by
  simp only [feedChunk, processPendingBuffer]
  rw [← List.append_assoc, breakLines_append (p.buffer ++ a) b]
  simp [runLines, List.foldl_append]

/-- Feeding a non-empty chunk list one chunk at a time equals feeding the joined
transcript at once. -/
theorem feedChunks_join (parse : List Char → Option EventData)
    (chunks : List (List Char)) :
    ∀ p : Pending, chunks ≠ [] →
      chunks.foldl (feedChunk parse) p = feedChunk parse p chunks.flatten := by
  induction chunks with
  | nil => intro p h; exact absurd rfl h
  | cons c cs ih =>
    intro p _
    cases cs with
    | nil => simp
    | cons d ds =>
      rw [List.foldl_cons, ih (feedChunk parse p c) (by simp), feedChunk_append]
      simp

/-- Feeding the empty chunk to a freshly started pending stream changes nothing. -/
theorem feedChunk_start_nil (parse : List Char → Option EventData)
    (model : String) (turn : Nat) :
    feedChunk parse (startPending model turn) [] = startPending model turn := rfl

/-- A newline after a newline-free segment closes exactly that segment as one
complete line. -/
theorem breakLines_newline (l r : List Char) (h : '\n' ∉ l) :
    breakLines (l ++ '\n' :: r) = (l :: (breakLines r).1, (breakLines r).2) := by
  induction l with
  | nil => simp [breakLines]
  | cons c l ih =>
    have hc : c ≠ '\n' := fun hsame => h (hsame ▸ List.mem_cons_self c l)
    have h' : '\n' ∉ l := fun hm => h (List.mem_cons_of_mem c hm)
    simp [breakLines, hc, ih h']

/-- A complete data line whose payload fails to parse leaves the per-line loop's
state untouched. -/
theorem lineStep_bad_data (parse : List Char → Option EventData) (et : String)
    (st : StreamState) (payload : List Char) (hparse : parse payload = none) :
    lineStep parse et st (dataHead ++ payload) = (et, st) := by
  have hev : hasPre eventHead (dataHead ++ payload) = false := rfl
  have hda : hasPre dataHead (dataHead ++ payload) = true := rfl
  have hdrop : (dataHead ++ payload).drop 6 = payload := rfl
  simp [lineStep, hev, hda, hdrop, hparse]

/-- Feeding a chunk that is exactly one unparseable data line, from a clean line
boundary, changes nothing. -/
theorem feedChunk_skip_bad_line (parse : List Char → Option EventData)
    (q : Pending) (payload : List Char) (hq : q.buffer = [])
    (hnl : '\n' ∉ payload) (hparse : parse payload = none) :
    feedChunk parse q (dataHead ++ payload ++ ['\n']) = q := by
  obtain ⟨st, rm, tn, buf, et⟩ := q
  simp only at hq
  subst hq
  have hnd : '\n' ∉ dataHead ++ payload := by
    intro hmem
    rcases List.mem_append.1 hmem with hm | hm
    · simp [dataHead] at hm
    · exact hnl hm
  have hbl : breakLines (dataHead ++ (payload ++ ['\n'])) =
      ([dataHead ++ payload], []) := by
    rw [← List.append_assoc]
    exact breakLines_newline (dataHead ++ payload) [] hnd
  simp [feedChunk, processPendingBuffer, hbl, runLines,
    lineStep_bad_data parse _ _ payload hparse]

/-! ## Helper lemmas about the state machine -/

/-- Dispatch: the switch sends `message_start` to its handler. -/
theorem processSSEEvent_ms (d : EventData) (s : StreamState) :
    processSSEEvent "message_start" d s = onMessageStart d s := rfl

/-- Dispatch: the switch sends `content_block_start` to its handler. -/
theorem processSSEEvent_bs (d : EventData) (s : StreamState) :
    processSSEEvent "content_block_start" d s = onBlockStart d s := rfl

/-- Dispatch: the switch sends `content_block_delta` to its handler. -/
theorem processSSEEvent_bd (d : EventData) (s : StreamState) :
    processSSEEvent "content_block_delta" d s = onBlockDelta d s := rfl

/-- Dispatch: the switch sends `message_delta` to its handler. -/
theorem processSSEEvent_md (d : EventData) (s : StreamState) :
    processSSEEvent "message_delta" d s = onMessageDelta d s := rfl

/-- Opening a content block never touches the usage snapshot. -/
theorem onBlockStart_usage (d : EventData) (s : StreamState) :
    (onBlockStart d s).usage = s.usage := by
  unfold onBlockStart; split <;> rfl

/-- A content delta never touches the usage snapshot. -/
theorem onBlockDelta_usage (d : EventData) (s : StreamState) :
    (onBlockDelta d s).usage = s.usage := by
  unfold onBlockDelta; split <;> rfl

/-- Events other than `message_start` and `message_delta` never touch the usage
snapshot. -/
theorem usage_preserved (et : String) (d : EventData) (s : StreamState)
    (h1 : et ≠ "message_start") (h2 : et ≠ "message_delta") :
    (processSSEEvent et d s).usage = s.usage := by
  unfold processSSEEvent
  rw [if_neg h1]
  by_cases h3 : et = "content_block_start"
  · rw [if_pos h3]; exact onBlockStart_usage d s
  · rw [if_neg h3]
    by_cases h4 : et = "content_block_delta"
    · rw [if_pos h4]; exact onBlockDelta_usage d s
    · rw [if_neg h4, if_neg h2]

/-- Folding a list of such events preserves the usage snapshot. -/
theorem usage_preserved_foldl (mid : List (String × EventData)) :
    ∀ s : StreamState,
      (∀ e ∈ mid, e.1 ≠ "message_start" ∧ e.1 ≠ "message_delta") →
      (mid.foldl (fun st e => processSSEEvent e.1 e.2 st) s).usage = s.usage := by
  induction mid with
  | nil => intro s _; rfl
  | cons e mid ih =>
    intro s h
    have he := h e (by simp)
    rw [List.foldl_cons, ih _ fun e' he' => h e' (by simp [he']),
      usage_preserved e.1 e.2 s he.1 he.2]

/-- A missing block index leaves the list untouched. -/
theorem bumpFirst_of_none (bs : List TrackedBlock) (i len : Nat)
    (h : findBlock bs i = none) : bumpFirst bs i len = bs := by
  induction bs with
  | nil => rfl
  | cons b bs ih =>
    simp only [findBlock, List.find?_cons] at h
    rcases hb : decide (b.index = i) with _ | _
    · rw [hb] at h
      simp only [bumpFirst, if_neg (of_decide_eq_false hb)]
      rw [ih h]
    · rw [hb] at h; exact absurd h (by simp)

/-- Bumping the first block with a matching index updates exactly the block that
`find` returns. -/
theorem findBlock_bumpFirst (bs : List TrackedBlock) (i len : Nat)
    (b : TrackedBlock) (h : findBlock bs i = some b) :
    findBlock (bumpFirst bs i len) i =
      some { b with charCount := b.charCount + len } := by
  induction bs with
  | nil => simp [findBlock] at h
  | cons b' bs ih =>
    by_cases hb : b'.index = i
    · simp only [findBlock, List.find?_cons, decide_eq_true hb] at h
      cases h
      simp [bumpFirst, findBlock, if_pos hb, List.find?_cons, decide_eq_true hb]
    · simp only [findBlock, List.find?_cons, decide_eq_false hb] at h
      simpa [bumpFirst, findBlock, if_neg hb, List.find?_cons,
        decide_eq_false hb] using ih h

/-- Lookup by `find` ignores blocks appended after an existing match. -/
theorem findBlock_append_of_isSome (bs bs' : List TrackedBlock) (i : Nat)
    (h : (findBlock bs i).isSome) :
    findBlock (bs ++ bs') i = findBlock bs i := by
  induction bs with
  | nil => simp [findBlock] at h
  | cons b bs ih =>
    by_cases hb : b.index = i
    · simp [findBlock, List.find?_cons, decide_eq_true hb]
    · simp only [findBlock, List.find?_cons, decide_eq_false hb,
        Option.isSome] at h ⊢
      simp only [List.cons_append, List.find?_cons, decide_eq_false hb]
      exact ih h

/-- A block whose character count is zero adds nothing to any per-kind total. -/
theorem sumBlockChars_append_zero (bs : List TrackedBlock) (i : Nat) (t : String) :
    sumBlockChars (bs ++ [{ index := i, type := t, charCount := 0 }]) =
      sumBlockChars bs := by
  simp only [sumBlockChars, List.foldl_append, List.foldl_cons, List.foldl_nil]
  split
  · simp
  · split
    · simp
    · split <;> simp

/-! ## Helper lemmas about the pending map and the exit flusher -/

/-- Deleting a turn from the pending map makes its lookup fail. -/
theorem lookupTurn_erase (m : List (Nat × Pending)) (n : Nat) :
    lookupTurn (eraseTurn m n) n = none := by
  induction m with
  | nil => rfl
  | cons e m ih =>
    by_cases he : e.1 = n
    · simp [eraseTurn, he] at ih ⊢
      exact ih
    · simp [eraseTurn, lookupTurn, he, List.find?_cons, ih]

/-- The flush loop appends exactly the records of the streams whose finalization
succeeds, in map order; a failing stream is skipped without affecting the rest. -/
theorem exitFlush_records (fin : Pending → Option ApiCallRecord) (sys : SysState) :
    (exitFlush fin sys).records =
      sys.records ++ sys.pendingStreams.filterMap fun e => fin e.2 := by
  show List.foldl _ sys.records sys.pendingStreams = _
  generalize sys.records = init
  induction sys.pendingStreams generalizing init with
  | nil => simp
  | cons e m ih =>
    rcases he : fin e.2 with _ | r <;>
      simp [List.filterMap_cons, he, ih]

/-! ## Helper lemmas about message events -/

/-- Event `message_start` with a usage object installs the payload's counters,
defaulting absent fields to 0 and materializing both cache counters. -/
theorem message_start_sets_usage (d : EventData) (mp : MessagePayload)
    (u : UsagePayload) (s : StreamState)
    (hd : d.message = some mp) (hu : mp.usage = some u) :
    (processSSEEvent "message_start" d s).usage =
      { input_tokens := u.input_tokens.getD 0,
        output_tokens := u.output_tokens.getD 0,
        cache_creation_input_tokens := some (u.cache_creation_input_tokens.getD 0),
        cache_read_input_tokens := some (u.cache_read_input_tokens.getD 0) } := by
  rw [processSSEEvent_ms]
  rcases hi : truthyStr mp.id with _ | i <;> rcases hm : truthyStr mp.model with _ | m <;>
    simp [onMessageStart, hd, hu, hi, hm]

/-- Event `message_delta` with a usage object rewrites only the output token count,
falling back to the current count when the field is absent. -/
theorem message_delta_usage (d : EventData) (s : StreamState) (u : UsagePayload)
    (hd : d.usage = some u) :
    (processSSEEvent "message_delta" d s).usage =
      { s.usage with output_tokens := u.output_tokens.getD s.usage.output_tokens } := by
  rw [processSSEEvent_md]
  rcases hdd : d.delta with _ | dd
  · simp [onMessageDelta, hd, hdd]
  · rcases hr : truthyStr dd.stop_reason with _ | r <;>
      simp [onMessageDelta, hd, hdd, hr]

/-- Event `message_delta` without a usage object leaves the usage snapshot alone. -/
theorem message_delta_no_usage (d : EventData) (s : StreamState)
    (hd : d.usage = none) :
    (processSSEEvent "message_delta" d s).usage = s.usage := by
  rw [processSSEEvent_md]
  rcases hdd : d.delta with _ | dd
  · simp [onMessageDelta, hd, hdd]
  · rcases hr : truthyStr dd.stop_reason with _ | r <;>
      simp [onMessageDelta, hd, hdd, hr]

/-- Event `message_delta` never touches the message id, the model, or the tracked
content blocks. -/
theorem message_delta_frame_core (d : EventData) (s : StreamState) :
    (processSSEEvent "message_delta" d s).messageId = s.messageId ∧
    (processSSEEvent "message_delta" d s).model = s.model ∧
    (processSSEEvent "message_delta" d s).contentBlocks = s.contentBlocks := by
  rw [processSSEEvent_md]
  rcases hu : d.usage with _ | u <;> rcases hdd : d.delta with _ | dd
  · simp [onMessageDelta, hu, hdd]
  · rcases hr : truthyStr dd.stop_reason with _ | r <;>
      simp [onMessageDelta, hu, hdd, hr]
  · simp [onMessageDelta, hu, hdd]
  · rcases hr : truthyStr dd.stop_reason with _ | r <;>
      simp [onMessageDelta, hu, hdd, hr]

/-- Event `message_delta` with a truthy stop reason captures it. -/
theorem message_delta_stop (d : EventData) (s : StreamState) (dd : DeltaPayload)
    (r : String) (hdd : d.delta = some dd) (hr : dd.stop_reason = some r)
    (hr' : r ≠ "") :
    (processSSEEvent "message_delta" d s).stopReason = some r := by
  rw [processSSEEvent_md]
  have ht : truthyStr dd.stop_reason = some r := by simp [truthyStr, hr, hr']
  rcases hu : d.usage with _ | u <;> simp [onMessageDelta, hu, hdd, ht]

/-! ## Claim theorems -/

/-- Claim C1: for every stream state, a `message_start` event carrying usage with
100 input and 0 output tokens, followed later (across any events that are neither
`message_start` nor `message_delta`) by a `message_delta` event carrying a usage
object with 50 output tokens, yields a final record with `input_tokens = 100` and
`output_tokens = 50`; in general `message_delta` overwrites the output token count
with its payload's value (last write wins), and captures a truthy stop reason. -/
theorem message_delta_correction
    (s : StreamState) (dms : EventData) (mp : MessagePayload) (cc cr : Option Nat)
    (hdms : dms.message = some mp)
    (hmp : mp.usage = some { input_tokens := some 100, output_tokens := some 0,
                             cache_creation_input_tokens := cc,
                             cache_read_input_tokens := cr })
    (mid : List (String × EventData))
    (hmid : ∀ e ∈ mid, e.1 ≠ "message_start" ∧ e.1 ≠ "message_delta")
    (dmd : EventData) (u : UsagePayload)
    (hu : dmd.usage = some u) (ho : u.output_tokens = some 50)
    (cfg : PricingConfig) (env : RecordEnv) (rm : String) (tn : Nat)
    (s' : StreamState) (d' : EventData) (u' : UsagePayload) (n : Nat)
    (hu' : d'.usage = some u') (ho' : u'.output_tokens = some n)
    (s'' : StreamState) (d'' : EventData) (dd'' : DeltaPayload) (r : String)
    (hd'' : d''.delta = some dd'') (hr : dd''.stop_reason = some r) (hr' : r ≠ "") :
    (finalizeRecord cfg env
      { state := processSSEEvent "message_delta" dmd
          (mid.foldl (fun st e => processSSEEvent e.1 e.2 st)
            (processSSEEvent "message_start" dms s)),
        requestModel := rm, turnNum := tn, buffer := [], eventType := "" }).input_tokens
        = 100 ∧
    (finalizeRecord cfg env
      { state := processSSEEvent "message_delta" dmd
          (mid.foldl (fun st e => processSSEEvent e.1 e.2 st)
            (processSSEEvent "message_start" dms s)),
        requestModel := rm, turnNum := tn, buffer := [], eventType := "" }).output_tokens
        = 50 ∧
    (processSSEEvent "message_delta" d' s').usage.output_tokens = n ∧
    (processSSEEvent "message_delta" d'' s'').stopReason = some r := by
  have hmid' : (mid.foldl (fun st e => processSSEEvent e.1 e.2 st)
      (processSSEEvent "message_start" dms s)).usage =
      { input_tokens := 100, output_tokens := 0,
        cache_creation_input_tokens := some (cc.getD 0),
        cache_read_input_tokens := some (cr.getD 0) } := by
    rw [usage_preserved_foldl mid _ hmid,
      message_start_sets_usage dms mp _ s hdms hmp]
    simp
  refine ⟨?_, ?_, ?_, message_delta_stop d'' s'' dd'' r hd'' hr hr'⟩
  · show (processSSEEvent "message_delta" dmd _).usage.input_tokens = 100
    rw [message_delta_usage _ _ u hu, hmid']
  · show (processSSEEvent "message_delta" dmd _).usage.output_tokens = 50
    rw [message_delta_usage _ _ u hu, hmid', ho]
    rfl
  · rw [message_delta_usage _ _ u' hu', ho']
    rfl

/-- Claim C1 witness: the concrete correction scenario, with one content delta
between the two message events. -/
theorem message_delta_correction_witness :
    (finalizeRecord fallbackPricing demoEnv c1Pending).input_tokens = 100 ∧
    (finalizeRecord fallbackPricing demoEnv c1Pending).output_tokens = 50 ∧
    (processSSEEvent "message_delta" md9Event demoState).usage.output_tokens = 9 ∧
    (processSSEEvent "message_delta" mdToolStopEvent demoState).stopReason =
      some "tool_use" :=
  message_delta_correction demoState msEvent msPayload none none rfl rfl
    midList (by decide) md50Event (usageOut 50) rfl rfl
    fallbackPricing demoEnv "claude-opus-4-6-20250610" 2
    demoState md9Event (usageOut 9) 9 rfl rfl
    demoState mdToolStopEvent (stopDelta "tool_use") "tool_use" rfl rfl (by decide)

/-- Claim C2: for a fixed transcript, feeding any chunk split one chunk at a time
through the demuxer — which retains the final, possibly-incomplete line fragment
between calls — and then finalizing yields an identical final ApiCallRecord to
feeding the whole transcript as one chunk. -/
theorem chunk_boundary_invariance (parse : List Char → Option EventData)
    (cfg : PricingConfig) (env : RecordEnv) (model : String) (turn : Nat)
    (chunks : List (List Char)) :
    chunks.foldl (feedChunk parse) (startPending model turn) =
      feedChunk parse (startPending model turn) chunks.flatten ∧
    finalizeRecord cfg env (processPendingBuffer parse
        (chunks.foldl (feedChunk parse) (startPending model turn))) =
      finalizeRecord cfg env (processPendingBuffer parse
        (feedChunk parse (startPending model turn) chunks.flatten)) := by
  have h : chunks.foldl (feedChunk parse) (startPending model turn) =
      feedChunk parse (startPending model turn) chunks.flatten := by
    cases chunks with
    | nil => exact (feedChunk_start_nil parse model turn).symm
    | cons c cs => exact feedChunks_join parse (c :: cs) _ (by simp)
  exact ⟨h, by rw [h]⟩

/-- Claim C9: applying an event of an unrecognized type leaves the stream state —
message id, model, all four usage token counts, stop reason, and every tracked
block — entirely unchanged. -/
theorem unknown_event_noop (et : String) (d : EventData) (s : StreamState)
    (h1 : et ≠ "message_start") (h2 : et ≠ "content_block_start")
    (h3 : et ≠ "content_block_delta") (h4 : et ≠ "message_delta") :
    processSSEEvent et d s = s := by
  unfold processSSEEvent
  rw [if_neg h1, if_neg h2, if_neg h3, if_neg h4]

/-- Claim C9 witness: a `ping` event between two deltas alters nothing. -/
theorem unknown_event_noop_witness :
    processSSEEvent "ping" emptyEvent demoState = demoState :=
  unknown_event_noop "ping" emptyEvent demoState (by decide) (by decide)
    (by decide) (by decide)

/-- Claim C10: a `message_delta` whose usage object lacks an output token field
leaves the output token count unchanged, and every `message_delta` leaves the
input tokens, both cache token counts, the message id, the model, and the content
block list unchanged — only the output token count and the stop reason can change. -/
theorem message_delta_frame (s : StreamState) (d d' : EventData) (u' : UsagePayload)
    (hu' : d'.usage = some u') (hno : u'.output_tokens = none) :
    (processSSEEvent "message_delta" d s).usage.input_tokens =
      s.usage.input_tokens ∧
    (processSSEEvent "message_delta" d s).usage.cache_creation_input_tokens =
      s.usage.cache_creation_input_tokens ∧
    (processSSEEvent "message_delta" d s).usage.cache_read_input_tokens =
      s.usage.cache_read_input_tokens ∧
    (processSSEEvent "message_delta" d s).messageId = s.messageId ∧
    (processSSEEvent "message_delta" d s).model = s.model ∧
    (processSSEEvent "message_delta" d s).contentBlocks = s.contentBlocks ∧
    (processSSEEvent "message_delta" d' s).usage.output_tokens =
      s.usage.output_tokens := by
  obtain ⟨f1, f2, f3⟩ := message_delta_frame_core d s
  have husage : ∀ e : EventData,
      (processSSEEvent "message_delta" e s).usage.input_tokens = s.usage.input_tokens ∧
      (processSSEEvent "message_delta" e s).usage.cache_creation_input_tokens =
        s.usage.cache_creation_input_tokens ∧
      (processSSEEvent "message_delta" e s).usage.cache_read_input_tokens =
        s.usage.cache_read_input_tokens := by
    intro e
    rcases he : e.usage with _ | v
    · rw [message_delta_no_usage e s he]
      exact ⟨rfl, rfl, rfl⟩
    · rw [message_delta_usage e s v he]
      exact ⟨rfl, rfl, rfl⟩
  obtain ⟨g1, g2, g3⟩ := husage d
  refine ⟨g1, g2, g3, f1, f2, f3, ?_⟩
  rw [message_delta_usage d' s u' hu', hno]
  rfl

/-- Claim C10 witness: a concrete `message_delta` without an output token field. -/
theorem message_delta_frame_witness :
    (processSSEEvent "message_delta" mdStopEvent demoState).usage.input_tokens =
      demoState.usage.input_tokens ∧
    (processSSEEvent "message_delta" mdStopEvent demoState).usage.cache_creation_input_tokens =
      demoState.usage.cache_creation_input_tokens ∧
    (processSSEEvent "message_delta" mdStopEvent demoState).usage.cache_read_input_tokens =
      demoState.usage.cache_read_input_tokens ∧
    (processSSEEvent "message_delta" mdStopEvent demoState).messageId =
      demoState.messageId ∧
    (processSSEEvent "message_delta" mdStopEvent demoState).model = demoState.model ∧
    (processSSEEvent "message_delta" mdStopEvent demoState).contentBlocks =
      demoState.contentBlocks ∧
    (processSSEEvent "message_delta" mdNoOutEvent demoState).usage.output_tokens =
      demoState.usage.output_tokens :=
  message_delta_frame demoState mdStopEvent mdNoOutEvent noOutUsage rfl rfl

/-- Claim C3 counterexample: the claim says a second finalize attempt on the same
turn identifier is a no-op that never emits a duplicate record, but the done
branch of the wrapped reader finalizes unconditionally from its closure without
consulting the pending map, so a read after stream end — whose result carries
the done flag again — appends a second, identical record for the same turn. -/
theorem second_done_duplicates_record :
    doneTwice.2 ≠ doneOnce.2 ∧
    doneOnce.2.records.length = 1 ∧
    doneTwice.2.records.length = 2 ∧
    doneTwice.2.records[0]? = doneTwice.2.records[1]? ∧
    doneTwice.2.records.map (fun r => r.turn_number) = [3, 3] := by
  decide

/-- Claim C3 (amended): the stream-completion callback removes the stream's entry
from the pending set and appends exactly one record in the same synchronous step,
so no entry keyed by that turn identifier remains and a later finalize pass that
goes through the pending set (the exit flusher iterates only entries still
present) never touches that identifier again; the callback itself, however, is
unguarded, so a repeated done result re-runs finalization and duplicates the
record, as the counterexample shows. -/
theorem done_finalize_semantics (parse : List Char → Option EventData)
    (cfg : PricingConfig) (env : RecordEnv) (n : Nat) (pending : Pending)
    (sys : SysState) :
    (onStreamDone parse cfg env n pending sys).2.pendingStreams =
      eraseTurn sys.pendingStreams n ∧
    lookupTurn (onStreamDone parse cfg env n pending sys).2.pendingStreams n =
      none ∧
    ((onStreamDone parse cfg env n pending sys).2.pendingStreams.all
      fun e => e.1 ≠ n) = true ∧
    (onStreamDone parse cfg env n pending sys).2.records =
      sys.records ++ [finalizeRecord cfg env (processPendingBuffer parse pending)] := by
  refine ⟨rfl, lookupTurn_erase sys.pendingStreams n, ?_, rfl⟩
  rw [List.all_eq_true]
  intro e he
  exact (List.mem_filter.1 he).2

/-- Claim C4: the exit flusher clears the pending set, produces exactly one
finalized record per pending stream whose finalization succeeds (a failure in one
stream never blocks the others), and a transcript containing only `message_start`
plus two content deltas with no stream-completion signal still yields exactly one
record reflecting the partial state. -/
theorem exit_flush_safety (fin : Pending → Option ApiCallRecord) (sys : SysState)
    (g : Pending → ApiCallRecord) :
    (exitFlush fin sys).pendingStreams = [] ∧
    (exitFlush fin sys).records =
      sys.records ++ sys.pendingStreams.filterMap (fun e => fin e.2) ∧
    (exitFlush (fun p => some (g p)) sys).records =
      sys.records ++ sys.pendingStreams.map (fun e => g e.2) ∧
    (exitFlush demoFin
      { pendingStreams :=
          [(1, feedChunk demoParse (startPending "claude-opus-4-6-20250610" 1)
                partialTranscript)],
        records := [] }).records.map (fun r => r.message_id) = [some "msg_1"] ∧
    (exitFlush demoFin
      { pendingStreams :=
          [(1, feedChunk demoParse (startPending "claude-opus-4-6-20250610" 1)
                partialTranscript)],
        records := [] }).records.map
        (fun r => (r.input_tokens, r.output_tokens, r.cache_creation_input_tokens,
          r.cache_read_input_tokens)) = [(100, 0, 0, 0)] ∧
    (exitFlush demoFin
      { pendingStreams :=
          [(1, feedChunk demoParse (startPending "claude-opus-4-6-20250610" 1)
                partialTranscript)],
        records := [] }).records.map
        (fun r => (r.thinking_chars, r.text_chars, r.tool_use_chars, r.turn_number)) =
      [(0, 0, 0, 1)] ∧
    (exitFlush demoFin
      { pendingStreams :=
          [(1, feedChunk demoParse (startPending "claude-opus-4-6-20250610" 1)
                partialTranscript)],
        records := [] }).records.map (fun r => r.stop_reason) = [none] := by
  refine ⟨rfl, exitFlush_records fin sys, ?_, by decide, by decide, by decide, by decide⟩
  rw [exitFlush_records,
    show (fun e : Nat × Pending => some (g e.2)) = some ∘ (fun e : Nat × Pending => g e.2)
      from rfl,
    List.filterMap_eq_map]

/-- Claim C5: with a tracked block at index `i`, a `content_block_delta` on `i`
adds the length of the delta text (the first present field among plain text,
reasoning text and partial structured arguments) to that block's character
count — so deltas of text lengths 5 and 7 raise it by 12 — and a delta whose
index matches no tracked block leaves the state unchanged. -/
theorem block_accumulation
    (s : StreamState) (i : Nat) (b : TrackedBlock)
    (hb : findBlock s.contentBlocks i = some b)
    (d : EventData) (dd : DeltaPayload)
    (hd : d.index = some i) (hdd : d.delta = some dd)
    (d1 d2 : EventData) (dd1 dd2 : DeltaPayload)
    (hd1 : d1.index = some i) (hdd1 : d1.delta = some dd1)
    (h5 : (deltaText dd1).length = 5)
    (hd2 : d2.index = some i) (hdd2 : d2.delta = some dd2)
    (h7 : (deltaText dd2).length = 7)
    (sN : StreamState) (dN : EventData) (hdN : dN.index = some i)
    (hbN : findBlock sN.contentBlocks i = none) :
    findBlock (processSSEEvent "content_block_delta" d s).contentBlocks i =
      some { b with charCount := b.charCount + (deltaText dd).length } ∧
    findBlock (processSSEEvent "content_block_delta" d2
        (processSSEEvent "content_block_delta" d1 s)).contentBlocks i =
      some { b with charCount := b.charCount + 12 } ∧
    processSSEEvent "content_block_delta" dN sN = sN := by
  have gen : ∀ (s' : StreamState) (d' : EventData) (dd' : DeltaPayload)
      (b' : TrackedBlock), d'.index = some i → d'.delta = some dd' →
      findBlock s'.contentBlocks i = some b' →
      findBlock (processSSEEvent "content_block_delta" d' s').contentBlocks i =
        some { b' with charCount := b'.charCount + (deltaText dd').length } := by
    intro s' d' dd' b' h1 h2 h3
    rw [processSSEEvent_bd]
    simp only [onBlockDelta, h1, h2]
    exact findBlock_bumpFirst s'.contentBlocks i (deltaText dd').length b' h3
  refine ⟨gen s d dd b hd hdd hb, ?_, ?_⟩
  · have g2 := gen _ d2 dd2 _ hd2 hdd2 (gen s d1 dd1 b hd1 hdd1 hb)
    rw [g2, h5, h7, Nat.add_assoc]
  · rw [processSSEEvent_bd]
    rcases he : dN.delta with _ | ddN
    · simp [onBlockDelta, hdN, he]
    · simp [onBlockDelta, hdN, he, bumpFirst_of_none sN.contentBlocks i _ hbN]

/-- Claim C5 witness: two concrete deltas of text lengths 5 and 7 on the block at
index 0, and a delta on an empty state. -/
theorem block_accumulation_witness :
    findBlock (processSSEEvent "content_block_delta" (deltaEvent0 "aaaaa")
        demoState).contentBlocks 0 =
      some { index := 0, type := "text", charCount := 4 + 5 } ∧
    findBlock (processSSEEvent "content_block_delta" (deltaEvent0 "bbbbbbb")
        (processSSEEvent "content_block_delta" (deltaEvent0 "aaaaa")
          demoState)).contentBlocks 0 =
      some { index := 0, type := "text", charCount := 4 + 12 } ∧
    processSSEEvent "content_block_delta" (deltaEvent0 "aaaaa")
      (startPending "m" 1).state = (startPending "m" 1).state :=
  block_accumulation demoState 0 { index := 0, type := "text", charCount := 4 }
    (by decide)
    (deltaEvent0 "aaaaa") (textDelta "aaaaa") rfl rfl
    (deltaEvent0 "aaaaa") (deltaEvent0 "bbbbbbb") (textDelta "aaaaa")
    (textDelta "bbbbbbb") rfl rfl (by decide) rfl rfl (by decide)
    (startPending "m" 1).state (deltaEvent0 "aaaaa") rfl (by decide)

/-- Claim C6: a model identifier that resolves to no pricing entry yields cost 0
(the cost function is total, never an error), and the finalized record's token
and character counts are read straight from the stream state, unaffected by cost
resolution. -/
theorem unknown_model_zero_cost (cfg : PricingConfig) (m : String)
    (i o cw cr : Nat) (env : RecordEnv) (p : Pending)
    (h : resolvePricing cfg m = none) (hm : p.state.model = m) :
    calculateCost cfg m i o cw cr = 0 ∧
    (finalizeRecord cfg env p).cost_usd = 0 ∧
    (finalizeRecord cfg env p).input_tokens = p.state.usage.input_tokens ∧
    (finalizeRecord cfg env p).output_tokens = p.state.usage.output_tokens ∧
    (finalizeRecord cfg env p).cache_creation_input_tokens =
      p.state.usage.cache_creation_input_tokens.getD 0 ∧
    (finalizeRecord cfg env p).cache_read_input_tokens =
      p.state.usage.cache_read_input_tokens.getD 0 ∧
    (finalizeRecord cfg env p).thinking_chars =
      (sumBlockChars p.state.contentBlocks).thinkingChars ∧
    (finalizeRecord cfg env p).text_chars =
      (sumBlockChars p.state.contentBlocks).textChars ∧
    (finalizeRecord cfg env p).tool_use_chars =
      (sumBlockChars p.state.contentBlocks).toolUseChars := by
  have hc : ∀ a b c' d' : Nat, calculateCost cfg m a b c' d' = 0 := by
    intro a b c' d'
    unfold calculateCost
    rw [h]
  refine ⟨hc i o cw cr, ?_, rfl, rfl, rfl, rfl, rfl, rfl, rfl⟩
  show calculateCost cfg p.state.model _ _ _ _ = 0
  rw [hm]
  exact hc _ _ _ _

/-- Claim C6 witness: a model of no known family with the bundled fallback table. -/
theorem unknown_model_zero_cost_witness :
    calculateCost fallbackPricing "mystery-model-x" 11 22 33 44 = 0 ∧
    (finalizeRecord fallbackPricing demoEnv unknownModelPending).cost_usd = 0 ∧
    (finalizeRecord fallbackPricing demoEnv unknownModelPending).input_tokens =
      unknownModelPending.state.usage.input_tokens ∧
    (finalizeRecord fallbackPricing demoEnv unknownModelPending).output_tokens =
      unknownModelPending.state.usage.output_tokens ∧
    (finalizeRecord fallbackPricing demoEnv unknownModelPending).cache_creation_input_tokens =
      unknownModelPending.state.usage.cache_creation_input_tokens.getD 0 ∧
    (finalizeRecord fallbackPricing demoEnv unknownModelPending).cache_read_input_tokens =
      unknownModelPending.state.usage.cache_read_input_tokens.getD 0 ∧
    (finalizeRecord fallbackPricing demoEnv unknownModelPending).thinking_chars =
      (sumBlockChars unknownModelPending.state.contentBlocks).thinkingChars ∧
    (finalizeRecord fallbackPricing demoEnv unknownModelPending).text_chars =
      (sumBlockChars unknownModelPending.state.contentBlocks).textChars ∧
    (finalizeRecord fallbackPricing demoEnv unknownModelPending).tool_use_chars =
      (sumBlockChars unknownModelPending.state.contentBlocks).toolUseChars :=
  unknown_model_zero_cost fallbackPricing "mystery-model-x" 11 22 33 44 demoEnv
    unknownModelPending (by decide) rfl

/-- Claim C7: a data line whose payload fails to parse is skipped as a single
unit — the per-line loop leaves its state untouched on that line, and feeding a
chunk containing such a complete data line produces exactly the stream state of
the same chunk with the unparseable line removed; the demuxer is a total
function, so the stream is never aborted. -/
theorem parse_error_skips_unit (parse : List Char → Option EventData)
    (p : Pending) (A B payload : List Char) (et : String) (st : StreamState)
    (hfrag : (breakLines (p.buffer ++ A)).2 = [])
    (hnl : '\n' ∉ payload) (hparse : parse payload = none) :
    lineStep parse et st (dataHead ++ payload) = (et, st) ∧
    feedChunk parse p (A ++ (dataHead ++ payload ++ ['\n']) ++ B) =
      feedChunk parse p (A ++ B) := by
  refine ⟨lineStep_bad_data parse et st payload hparse, ?_⟩
  have hqbuf : (feedChunk parse p A).buffer = [] := by
    simp [feedChunk, processPendingBuffer]
    exact hfrag
  calc feedChunk parse p (A ++ (dataHead ++ payload ++ ['\n']) ++ B)
      = feedChunk parse (feedChunk parse p (A ++ (dataHead ++ payload ++ ['\n']))) B :=
        (feedChunk_append parse p _ B).symm
    _ = feedChunk parse
          (feedChunk parse (feedChunk parse p A) (dataHead ++ payload ++ ['\n'])) B := by
        rw [feedChunk_append parse p A (dataHead ++ payload ++ ['\n'])]
    _ = feedChunk parse (feedChunk parse p A) B := by
        rw [feedChunk_skip_bad_line parse _ payload hqbuf hnl hparse]
    _ = feedChunk parse p (A ++ B) := feedChunk_append parse p A B

/-- Claim C7 witness: a concrete chunk with an unparseable data payload between
an event line and a parseable data line. -/
theorem parse_error_skips_unit_witness :
    lineStep demoParse "x" demoState (dataHead ++ ['z', 'z']) = ("x", demoState) ∧
    feedChunk demoParse (startPending "m" 1)
      ("event: content_block_start\ndata: cb\n".data ++
        (dataHead ++ ['z', 'z'] ++ ['\n']) ++ "event: content_block_delta\ndata: d5\n".data) =
      feedChunk demoParse (startPending "m" 1)
        ("event: content_block_start\ndata: cb\n".data ++
          "event: content_block_delta\ndata: d5\n".data) :=
  parse_error_skips_unit demoParse (startPending "m" 1)
    "event: content_block_start\ndata: cb\n".data
    "event: content_block_delta\ndata: d5\n".data
    ['z', 'z'] "x" demoState (by decide) (by decide) (by decide)

/-- Claim C8 counterexample: the claim says a repeated `content_block_start` for
an index that already has a tracked block leaves the stream state unchanged, but
the handler pushes a second tracked block unconditionally, so the state changes. -/
theorem second_block_start_changes_state :
    processSSEEvent "content_block_start" dupBlockStart demoState ≠ demoState := by
  decide

/-- Claim C8 amended: a second `content_block_start` for an index that already
has a tracked block appends an additional block with that index and a zero
character count rather than being a no-op on the state; every other stream-state
field is unchanged, index lookups still return the original block, and the
per-kind character totals — hence the finalized record — are unchanged. -/
theorem second_block_start_appends (s : StreamState) (d : EventData)
    (cb : BlockPayload) (i : Nat)
    (hcb : d.content_block = some cb) (hidx : d.index = some i)
    (hex : (findBlock s.contentBlocks i).isSome = true) :
    (processSSEEvent "content_block_start" d s).contentBlocks =
      s.contentBlocks ++
        [{ index := i, type := (truthyStr cb.type).getD "text", charCount := 0 }] ∧
    (processSSEEvent "content_block_start" d s).messageId = s.messageId ∧
    (processSSEEvent "content_block_start" d s).model = s.model ∧
    (processSSEEvent "content_block_start" d s).usage = s.usage ∧
    (processSSEEvent "content_block_start" d s).stopReason = s.stopReason ∧
    findBlock (processSSEEvent "content_block_start" d s).contentBlocks i =
      findBlock s.contentBlocks i ∧
    sumBlockChars (processSSEEvent "content_block_start" d s).contentBlocks =
      sumBlockChars s.contentBlocks := by
  have hblocks : (processSSEEvent "content_block_start" d s).contentBlocks =
      s.contentBlocks ++
        [{ index := i, type := (truthyStr cb.type).getD "text", charCount := 0 }] := by
    rw [processSSEEvent_bs]
    simp [onBlockStart, hcb, hidx]
  refine ⟨hblocks, ?_, ?_, ?_, ?_, ?_, ?_⟩
  · rw [processSSEEvent_bs]; simp [onBlockStart, hcb]
  · rw [processSSEEvent_bs]; simp [onBlockStart, hcb]
  · rw [processSSEEvent_bs]; simp [onBlockStart, hcb]
  · rw [processSSEEvent_bs]; simp [onBlockStart, hcb]
  · rw [hblocks]
    exact findBlock_append_of_isSome s.contentBlocks _ i hex
  · rw [hblocks]
    exact sumBlockChars_append_zero s.contentBlocks i _

/-- Claim C8 amended witness: the duplicate block appended at index 0. -/
theorem second_block_start_appends_witness :
    (processSSEEvent "content_block_start" dupBlockStart demoState).contentBlocks =
      demoState.contentBlocks ++ [{ index := 0, type := "text", charCount := 0 }] ∧
    (processSSEEvent "content_block_start" dupBlockStart demoState).messageId =
      demoState.messageId ∧
    (processSSEEvent "content_block_start" dupBlockStart demoState).model =
      demoState.model ∧
    (processSSEEvent "content_block_start" dupBlockStart demoState).usage =
      demoState.usage ∧
    (processSSEEvent "content_block_start" dupBlockStart demoState).stopReason =
      demoState.stopReason ∧
    findBlock (processSSEEvent "content_block_start" dupBlockStart
        demoState).contentBlocks 0 = findBlock demoState.contentBlocks 0 ∧
    sumBlockChars (processSSEEvent "content_block_start" dupBlockStart
        demoState).contentBlocks = sumBlockChars demoState.contentBlocks :=
  second_block_start_appends demoState dupBlockStart { type := some "text" } 0
    rfl rfl (by decide)
